import Mathlib

/-!
Verification of the postgres-mcp resource-management core against its
specification.  The TypeScript sources are shallowly embedded in Lean:

* JS strings become `String` / `List Char`; `Map` objects become
  association lists with explicit lookup / set / remove operations;
* `async` calls into the `pg` driver are modelled by passing the driver's
  answer (`Except DriverErr _`) as an explicit oracle argument, and the
  commands sent to a pooled client together with pool release events are
  recorded in an explicit event trace;
* `try/finally` and `try/catch` blocks become explicit case splits that
  produce the same state updates and traces on every branch, exactly as
  the corresponding TypeScript control flow does.

Files embedded: src/database/connection-manager.ts (DatabaseConnectionManager),
src/common/security.ts (RateLimiter.checkLimit), src/common/errors.ts
(ErrorHandler.getRetryDelay) and the query-result cache module
(QueryResultCache: generateKey / simpleHash / invalidate / invalidateTable).
-/

/-! ## Generic association-list maps (embedding of JS `Map`) -/

def lookupKey {κ α : Type} [DecidableEq κ] : List (κ × α) → κ → Option α
  | [], _ => none
  | kv :: rest, k => if kv.1 = k then some kv.2 else lookupKey rest k

def removeKey {κ α : Type} [DecidableEq κ] : List (κ × α) → κ → List (κ × α)
  | [], _ => []
  | kv :: rest, k => if kv.1 = k then removeKey rest k else kv :: removeKey rest k

def setKey {κ α : Type} [DecidableEq κ] (m : List (κ × α)) (k : κ) (v : α) :
    List (κ × α) :=
  removeKey m k ++ [(k, v)]

theorem lookupKey_removeKey_self {κ α : Type} [DecidableEq κ]
    (m : List (κ × α)) (k : κ) : lookupKey (removeKey m k) k = none := by
  induction m with
  | nil => rfl
  | cons kv rest ih =>
      by_cases h : kv.1 = k
      · simpa [removeKey, h] using ih
      · simpa [removeKey, lookupKey, h] using ih

theorem lookupKey_setKey_self {κ α : Type} [DecidableEq κ]
    (m : List (κ × α)) (k : κ) (v : α) : lookupKey (setKey m k v) k = some v := by
  induction m with
  | nil => simp [setKey, removeKey, lookupKey]
  | cons kv rest ih =>
      by_cases h : kv.1 = k
      · simpa [setKey, removeKey, h] using ih
      · simpa [setKey, removeKey, lookupKey, h] using ih

/-! ## Character-level helpers shared by the embeddings

JS strings are treated as lists of characters.  `jsWhitespace` is the
character class matched by JavaScript `\s` (and removed by
`String.prototype.trim`). -/

def jsWhitespace (c : Char) : Bool :=
  c == ' ' || c == '\t' || c == '\n' || c == '\r' ||
  c.val == 11 || c.val == 12 || c.val == 160 || c.val == 5760 ||
  (8192 ≤ c.val && c.val ≤ 8202) || c.val == 8232 || c.val == 8233 ||
  c.val == 8239 || c.val == 8287 || c.val == 12288 || c.val == 65279

def trimChars (l : List Char) : List Char :=
  ((l.dropWhile jsWhitespace).reverse.dropWhile jsWhitespace).reverse

def toUpperChars (l : List Char) : List Char := l.map Char.toUpper

def toLowerChars (l : List Char) : List Char := l.map Char.toLower

def startsWithList : List Char → List Char → Bool
  | [], _ => true
  | _ :: _, [] => false
  | a :: as, b :: bs => a == b && startsWithList as bs

def containsSub (sub : List Char) : List Char → Bool
  | [] => startsWithList sub []
  | c :: rest => startsWithList sub (c :: rest) || containsSub sub rest

/-! ## connection-manager.ts: write-shape classifier

Embedding of `DatabaseConnectionManager.isWriteOperation` (lines 343-351):
normalize via `sql.trim().toUpperCase()` and test whether the result
starts with one of ten keywords. -/

def writeOperations : List String :=
  ["INSERT", "UPDATE", "DELETE", "CREATE", "DROP", "ALTER",
   "TRUNCATE", "GRANT", "REVOKE", "COPY"]

def isWriteOperation (sql : String) : Bool :=
  let normalizedSql := toUpperChars (trimChars sql.data)
  writeOperations.any (fun op => startsWithList op.data normalizedSql)

/-! ## connection-manager.ts: manager state, events and operations -/

structure DriverErr where
  code : Nat
deriving DecidableEq, Repr

structure QueryRes where
  tag : Nat
deriving DecidableEq, Repr

inductive MgrErr where
  | notFound (id : String)
  | readOnlyTxWrite
  | readOnlyModeWrite
  | readOnlyModeWriteTx
  | driver (e : DriverErr)
deriving DecidableEq, Repr

inductive Event where
  | clientQuery (conn : Nat) (sql : String)
  | release (conn : Nat)
  | poolEnd
deriving DecidableEq, Repr

structure TransactionContext where
  id : String
  client : Nat
  startTime : Nat
  readOnly : Bool
deriving DecidableEq, Repr

structure ManagerState where
  activeTransactions : List (String × TransactionContext)
deriving DecidableEq, Repr

structure OpResult (α : Type) where
  result : Except MgrErr α
  state : ManagerState
  trace : List Event

def effectiveTimeout : Option Nat → Nat → Nat
  | some t, mqt => if t = 0 then mqt else t
  | none, mqt => mqt

def setTimeoutCmd (t : Nat) : String := "SET statement_timeout = " ++ toString t

/-- Embedding of `DatabaseConnectionManager.query` (lines 104-153).
The pooled client obtained from `pool.connect()` is `conn`; the driver
outcomes of the `SET statement_timeout` command and of the statement
itself are the oracles `setRes` and `queryRes`.  `options.timeout ||
maxQueryTime` is `effectiveTimeout` (a supplied `0` is falsy in JS and
falls back to the configured default).  The `try/finally` releases the
client on every branch that acquired it; the read-only-mode rejection
happens before `pool.connect()`, so that branch has an empty trace. -/
def managerQuery (readOnlyMode : Bool) (maxQueryTime : Nat) (sql : String)
    (timeoutOpt : Option Nat) (conn : Nat) (setRes : Except DriverErr Unit)
    (queryRes : Except DriverErr QueryRes) : Except MgrErr QueryRes × List Event :=
  if readOnlyMode && isWriteOperation sql then
    (.error .readOnlyModeWrite, [])
  else
    let timeout := effectiveTimeout timeoutOpt maxQueryTime
    match setRes with
    | .error e => (.error (.driver e), [.clientQuery conn (setTimeoutCmd timeout), .release conn])
    | .ok _ =>
        match queryRes with
        | .error e =>
            (.error (.driver e),
             [.clientQuery conn (setTimeoutCmd timeout), .clientQuery conn sql, .release conn])
        | .ok r =>
            (.ok r,
             [.clientQuery conn (setTimeoutCmd timeout), .clientQuery conn sql, .release conn])

/-- Embedding of `DatabaseConnectionManager.beginTransaction` (lines 158-193).
`conn` is the client acquired from the pool, `newId` the generated uuid,
`beginRes` the driver outcome of the `BEGIN` / `BEGIN READ ONLY` command.
The `catch` block releases the client and rethrows, so every error branch
carries a `release` event and leaves the registry unchanged. -/
def beginTransaction (st : ManagerState) (readOnly readOnlyMode : Bool)
    (newId : String) (conn startTime : Nat) (beginRes : Except DriverErr Unit) :
    OpResult String :=
  if readOnly then
    match beginRes with
    | .ok _ =>
        ⟨.ok newId,
         ⟨setKey st.activeTransactions newId ⟨newId, conn, startTime, true⟩⟩,
         [.clientQuery conn "BEGIN READ ONLY"]⟩
    | .error e =>
        ⟨.error (.driver e), st, [.clientQuery conn "BEGIN READ ONLY", .release conn]⟩
  else
    if readOnlyMode then
      ⟨.error .readOnlyModeWriteTx, st, [.release conn]⟩
    else
      match beginRes with
      | .ok _ =>
          ⟨.ok newId,
           ⟨setKey st.activeTransactions newId ⟨newId, conn, startTime, false⟩⟩,
           [.clientQuery conn "BEGIN"]⟩
      | .error e =>
          ⟨.error (.driver e), st, [.clientQuery conn "BEGIN", .release conn]⟩

/-- Embedding of `DatabaseConnectionManager.queryInTransaction` (lines 198-230).
Lookup failure and the read-only write rejection both happen before any
driver interaction (empty trace); otherwise exactly the caller's statement
is sent on the context's client and the outcome is the oracle `queryRes`.
No branch modifies the transaction registry. -/
def queryInTransaction (st : ManagerState) (transactionId sql : String)
    (queryRes : Except DriverErr QueryRes) : OpResult QueryRes :=
  match lookupKey st.activeTransactions transactionId with
  | none => ⟨.error (.notFound transactionId), st, []⟩
  | some context =>
      if context.readOnly && isWriteOperation sql then
        ⟨.error .readOnlyTxWrite, st, []⟩
      else
        match queryRes with
        | .ok r => ⟨.ok r, st, [.clientQuery context.client sql]⟩
        | .error e => ⟨.error (.driver e), st, [.clientQuery context.client sql]⟩

/-- Embedding of `DatabaseConnectionManager.commitTransaction` (lines 235-253).
The `finally` block releases the client and deletes the registry entry on
both the success and the failure branch of the `COMMIT` command. -/
def commitTransaction (st : ManagerState) (transactionId : String)
    (commitRes : Except DriverErr Unit) : OpResult Unit :=
  match lookupKey st.activeTransactions transactionId with
  | none => ⟨.error (.notFound transactionId), st, []⟩
  | some context =>
      match commitRes with
      | .ok _ =>
          ⟨.ok (), ⟨removeKey st.activeTransactions transactionId⟩,
           [.clientQuery context.client "COMMIT", .release context.client]⟩
      | .error e =>
          ⟨.error (.driver e), ⟨removeKey st.activeTransactions transactionId⟩,
           [.clientQuery context.client "COMMIT", .release context.client]⟩

/-- Embedding of `DatabaseConnectionManager.rollbackTransaction` (lines 258-276),
identical to `commitTransaction` with the `ROLLBACK` command. -/
def rollbackTransaction (st : ManagerState) (transactionId : String)
    (rollbackRes : Except DriverErr Unit) : OpResult Unit :=
  match lookupKey st.activeTransactions transactionId with
  | none => ⟨.error (.notFound transactionId), st, []⟩
  | some context =>
      match rollbackRes with
      | .ok _ =>
          ⟨.ok (), ⟨removeKey st.activeTransactions transactionId⟩,
           [.clientQuery context.client "ROLLBACK", .release context.client]⟩
      | .error e =>
          ⟨.error (.driver e), ⟨removeKey st.activeTransactions transactionId⟩,
           [.clientQuery context.client "ROLLBACK", .release context.client]⟩

/-- Embedding of `DatabaseConnectionManager.cleanup` (lines 321-338).
For every registered context the code runs `try { ROLLBACK; release }
catch { log }`: when the `ROLLBACK` oracle fails, the error is swallowed
and — because `release()` sits after the failing `await` inside the same
`try` — the release is skipped for that context.  The registry is cleared
and the pool is closed afterwards; `cleanup` itself never throws. -/
def cleanup (st : ManagerState) (rollbackRes : String → Except DriverErr Unit) :
    ManagerState × List Event :=
  let perContext := st.activeTransactions.map fun kv =>
    match rollbackRes kv.1 with
    | .ok _ => [Event.clientQuery kv.2.client "ROLLBACK", Event.release kv.2.client]
    | .error _ => [Event.clientQuery kv.2.client "ROLLBACK"]
  (⟨[]⟩, perContext.flatten ++ [Event.poolEnd])

/-! ## Query-result cache (QueryResultCache)

Cache keys are produced by `generateKey`: the SQL text is normalized with
`replace(/\s+/g, ' ').trim().toLowerCase()`, concatenated with the JSON
serializations of the parameters and options (modelled as the serialized
strings), and hashed by `simpleHash`, whose result is rendered in base 36
(`Math.abs(hash).toString(36)`).  The cache itself is an association list
from keys to entries. -/

def collapseWs : List Char → List Char
  | [] => []
  | [c] => if jsWhitespace c then [' '] else [c]
  | c :: d :: rest =>
      if jsWhitespace c then
        if jsWhitespace d then collapseWs (d :: rest)
        else ' ' :: collapseWs (d :: rest)
      else c :: collapseWs (d :: rest)

/-- JS `ToInt32`: reduce an integer modulo `2^32` into `[-2^31, 2^31)`.
`hash = hash & hash` in `simpleHash` applies exactly this conversion. -/
def toInt32 (n : Int) : Int :=
  let m := n % 4294967296
  if m < 2147483648 then m else m - 4294967296

/-- One step of `simpleHash`: `hash = ((hash << 5) - hash) + charCode`
followed by `hash = hash & hash`.  `<<` wraps its result to a 32-bit
integer; the subtraction and addition are exact (JS doubles), and the
final `& hash` wraps again. -/
def simpleHashStep (hash : Int) (c : Char) : Int :=
  toInt32 (toInt32 (hash * 32) - hash + (c.toNat : Int))

def base36Digits : List Char := "0123456789abcdefghijklmnopqrstuvwxyz".data

def digit36 (d : Nat) : Char := base36Digits.getD d '0'

def toBase36Aux : Nat → Nat → List Char → List Char
  | 0, _, acc => acc
  | fuel + 1, n, acc =>
      if n = 0 then acc else toBase36Aux fuel (n / 36) (digit36 (n % 36) :: acc)

/-- `Number.prototype.toString(36)` on a natural number. -/
def natToBase36 (n : Nat) : List Char :=
  if n = 0 then ['0'] else toBase36Aux 64 n []

/-- `QueryResultCache.simpleHash` (part_001 lines 64-72). -/
def simpleHash (l : List Char) : List Char :=
  natToBase36 (l.foldl simpleHashStep 0).natAbs

/-- `QueryResultCache.generateKey` (part_001 lines 52-59).  `parameters`
and `options` stand for `JSON.stringify(parameters)` / `JSON.stringify(options)`
when present and for the empty string otherwise. -/
def generateKey (sql : String) (parameters options : Option String) : List Char :=
  let normalizedSql := toLowerChars (trimChars (collapseWs sql.data))
  let paramString := match parameters with | some p => p.data | none => []
  let optionsString := match options with | some o => o.data | none => []
  simpleHash (normalizedSql ++ paramString ++ optionsString)

structure CacheEntryM where
  data : Nat
  timestamp : Nat
  hits : Nat
  size : Nat
deriving DecidableEq, Repr

/-- `QueryResultCache.invalidate` (part_001 lines 137-157).  With no
pattern the cache is cleared and its previous size returned; with a
pattern the loop deletes every key the regex accepts and returns how many
it deleted.  The compiled regex's `test` is passed as the predicate. -/
def invalidate (cache : List (List Char × CacheEntryM))
    (pattern : Option (List Char → Bool)) : Nat × List (List Char × CacheEntryM) :=
  match pattern with
  | none => (cache.length, [])
  | some test =>
      ((cache.filter fun kv => test kv.1).length,
       cache.filter fun kv => !test kv.1)

/-- `\s+` followed by a literal, starting at the head of the list:
at least one JS whitespace character, then (after optionally more
whitespace) the literal `lit`. -/
def wsPlusThen (lit : List Char) : List Char → Bool
  | [] => false
  | c :: rest => jsWhitespace c && (startsWithList lit rest || wsPlusThen lit rest)

/-- Search semantics of the regex fragment `kw\s+lit` anywhere in the list. -/
def kwWsThen (kw lit : List Char) : List Char → Bool
  | [] => false
  | c :: rest =>
      (startsWithList kw (c :: rest) && wsPlusThen lit (List.drop kw.length (c :: rest)))
      || kwWsThen kw lit rest

/-- `new RegExp(schema\.table|from\s+table|join\s+table, i).test key`
for schema and table names without regex metacharacters: the three
alternatives are searched case-insensitively (both sides lowered). -/
def tablePatternTest (schemaName tableName : String) (key : List Char) : Bool :=
  let s := toLowerChars schemaName.data
  let t := toLowerChars tableName.data
  let k := toLowerChars key
  containsSub (s ++ '.' :: t) k ||
  kwWsThen "from".data t k ||
  kwWsThen "join".data t k

/-- `QueryResultCache.invalidateTable` (part_001 lines 162-165): build the
table pattern and delegate to `invalidate`. -/
def invalidateTable (cache : List (List Char × CacheEntryM))
    (tableName schemaName : String) : Nat × List (List Char × CacheEntryM) :=
  invalidate cache (some (tablePatternTest schemaName tableName))

/-- Characters free of regex metacharacters, so that interpolating the
name into the pattern string keeps it a literal. -/
def regexPlainName (s : String) : Bool :=
  s.data.all fun c => c.isAlphanum || c == '_'

/-! ## RateLimiter.checkLimit (security.ts lines 36-72) -/

structure RateLimitEntry where
  count : Nat
  resetTime : Nat
  lastRequest : Nat
deriving DecidableEq, Repr

/-- Embedding of `RateLimiter.checkLimit`: missing or expired entry opens
a fresh window (`count = 1`, admitted); inside a window the call is
rejected once `count ≥ maxRequests` and otherwise admitted with the
counter incremented.  Rejection returns `false` directly — there is no
queueing. -/
def checkLimit (requests : List (String × RateLimitEntry)) (identifier : String)
    (now windowMs maxRequests : Nat) : Bool × List (String × RateLimitEntry) :=
  match lookupKey requests identifier with
  | none => (true, setKey requests identifier ⟨1, now + windowMs, now⟩)
  | some entry =>
      if now > entry.resetTime then
        (true, setKey requests identifier ⟨1, now + windowMs, now⟩)
      else
        if entry.count ≥ maxRequests then
          (false, setKey requests identifier ⟨entry.count, entry.resetTime, now⟩)
        else
          (true, setKey requests identifier ⟨entry.count + 1, entry.resetTime, now⟩)

/-- Run a sequence of `checkLimit` calls for one identifier at the given
times, collecting the admission results. -/
def runCalls (requests : List (String × RateLimitEntry)) (identifier : String)
    (windowMs maxRequests : Nat) : List Nat → List Bool × List (String × RateLimitEntry)
  | [] => ([], requests)
  | t :: ts =>
      let step := checkLimit requests identifier t windowMs maxRequests
      let rest := runCalls step.2 identifier windowMs maxRequests ts
      (step.1 :: rest.1, rest.2)

/-! ## ErrorHandler.getRetryDelay (errors.ts lines 153-158)

`Math.random()` is the oracle `r ∈ [0, 1)`; arithmetic is modelled over
the rationals. -/

def getRetryDelay (attempt : Nat) (baseDelay r : ℚ) : ℚ :=
  let delay := baseDelay * 2 ^ (attempt - 1)
  let jitter := r * (1 / 10) * delay
  min (delay + jitter) 30000

/-! ## Concrete states used by witnesses and counterexamples -/

def stOneTx : ManagerState := ⟨[("t1", ⟨"t1", 7, 0, false⟩)]⟩

def stReadOnlyTx : ManagerState := ⟨[("r1", ⟨"r1", 4, 0, true⟩)]⟩

def stTwoTx : ManagerState :=
  ⟨[("t1", ⟨"t1", 7, 0, false⟩), ("t2", ⟨"t2", 8, 1, true⟩)]⟩

/-! ## Claim theorems -/

set_option maxRecDepth 10000

/-- C1: for every registered transaction id, `commitTransaction` and
`rollbackTransaction` release the context's connection back to the pool
and remove the context from the registry, whether the COMMIT/ROLLBACK
directive succeeds or raises: on both driver outcomes the trace carries
the `release` of the context's client and the id is no longer found in
the registry afterwards. -/
theorem commit_rollback_always_release (st : ManagerState) (id : String)
    (ctx : TransactionContext) (h : lookupKey st.activeTransactions id = some ctx)
    (r : Except DriverErr Unit) :
    (Event.release ctx.client ∈ (commitTransaction st id r).trace ∧
      lookupKey (commitTransaction st id r).state.activeTransactions id = none) ∧
    (Event.release ctx.client ∈ (rollbackTransaction st id r).trace ∧
      lookupKey (rollbackTransaction st id r).state.activeTransactions id = none) := by
  cases r <;> simp [commitTransaction, rollbackTransaction, h, lookupKey_removeKey_self]

/-- C1 witness: concrete registered transaction, failing COMMIT. -/
theorem commit_rollback_always_release_witness :
    (Event.release 7 ∈ (commitTransaction stOneTx "t1" (.error ⟨3⟩)).trace ∧
      lookupKey (commitTransaction stOneTx "t1" (.error ⟨3⟩)).state.activeTransactions "t1"
        = none) ∧
    (Event.release 7 ∈ (rollbackTransaction stOneTx "t1" (.error ⟨3⟩)).trace ∧
      lookupKey (rollbackTransaction stOneTx "t1" (.error ⟨3⟩)).state.activeTransactions "t1"
        = none) :=
  commit_rollback_always_release stOneTx "t1" ⟨"t1", 7, 0, false⟩ (by decide) (.error ⟨3⟩)

/-- C4: whenever `beginTransaction` fails — a failing `BEGIN` /
`BEGIN READ ONLY` directive or the rejection of a write transaction in
global read-only mode — the acquired connection is released, the error
propagates as the result, and the transaction registry is unchanged. -/
theorem begin_failure_releases_and_unregistered (st : ManagerState)
    (ro rom : Bool) (newId : String) (conn t : Nat) (r : Except DriverErr Unit)
    (e : MgrErr) (h : (beginTransaction st ro rom newId conn t r).result = .error e) :
    Event.release conn ∈ (beginTransaction st ro rom newId conn t r).trace ∧
    (beginTransaction st ro rom newId conn t r).state = st := by
  cases ro <;> cases rom <;> cases r <;> simp_all [beginTransaction]

/-- C4 witness: write transaction requested while the manager is in
read-only mode. -/
theorem begin_failure_releases_and_unregistered_witness :
    (beginTransaction stOneTx false true "t9" 9 0 (.ok ())).result
      = .error .readOnlyModeWriteTx ∧
    Event.release 9 ∈ (beginTransaction stOneTx false true "t9" 9 0 (.ok ())).trace ∧
    (beginTransaction stOneTx false true "t9" 9 0 (.ok ())).state = stOneTx := by
  refine ⟨rfl, ?_⟩
  exact begin_failure_releases_and_unregistered stOneTx false true "t9" 9 0 (.ok ())
    .readOnlyModeWriteTx rfl

/-- C5: after a transaction is committed or rolled back, any subsequent
`queryInTransaction`, `commitTransaction` or `rollbackTransaction` with
the same id fails with the not-found error, and the same failure is
produced for any id absent from the registry (ids never issued). -/
theorem closed_transaction_not_found (st : ManagerState) (id : String)
    (ctx : TransactionContext) (h : lookupKey st.activeTransactions id = some ctx)
    (r r' r'' : Except DriverErr Unit) (sql : String) (q : Except DriverErr QueryRes) :
    ((queryInTransaction (commitTransaction st id r).state id sql q).result
        = .error (.notFound id) ∧
      (commitTransaction (commitTransaction st id r).state id r').result
        = .error (.notFound id) ∧
      (rollbackTransaction (commitTransaction st id r).state id r'').result
        = .error (.notFound id)) ∧
    ((queryInTransaction (rollbackTransaction st id r).state id sql q).result
        = .error (.notFound id) ∧
      (commitTransaction (rollbackTransaction st id r).state id r').result
        = .error (.notFound id) ∧
      (rollbackTransaction (rollbackTransaction st id r).state id r'').result
        = .error (.notFound id)) ∧
    (∀ (st' : ManagerState) (id' : String),
      lookupKey st'.activeTransactions id' = none →
      (queryInTransaction st' id' sql q).result = .error (.notFound id') ∧
      (commitTransaction st' id' r').result = .error (.notFound id') ∧
      (rollbackTransaction st' id' r'').result = .error (.notFound id')) := by
  have hc : (commitTransaction st id r).state
      = ⟨removeKey st.activeTransactions id⟩ := by
    cases r <;> simp [commitTransaction, h]
  have hr : (rollbackTransaction st id r).state
      = ⟨removeKey st.activeTransactions id⟩ := by
    cases r <;> simp [rollbackTransaction, h]
  refine ⟨?_, ?_, ?_⟩
  · rw [hc]
    simp [queryInTransaction, commitTransaction, rollbackTransaction,
      lookupKey_removeKey_self]
  · rw [hr]
    simp [queryInTransaction, commitTransaction, rollbackTransaction,
      lookupKey_removeKey_self]
  · intro st' id' h'
    simp [queryInTransaction, commitTransaction, rollbackTransaction, h']

/-- C5 witness: commit the only transaction of a concrete state, then
look it up through each of the three operations. -/
theorem closed_transaction_not_found_witness :
    (queryInTransaction (commitTransaction stOneTx "t1" (.ok ())).state "t1" "SELECT 1"
        (.ok ⟨1⟩)).result = .error (.notFound "t1") ∧
    (commitTransaction (commitTransaction stOneTx "t1" (.ok ())).state "t1"
        (.ok ())).result = .error (.notFound "t1") ∧
    (rollbackTransaction (commitTransaction stOneTx "t1" (.ok ())).state "t1"
        (.ok ())).result = .error (.notFound "t1") :=
  (closed_transaction_not_found stOneTx "t1" ⟨"t1", 7, 0, false⟩ (by decide)
    (.ok ()) (.ok ()) (.ok ()) "SELECT 1" (.ok ⟨1⟩)).1

/-- C6: a read-only transaction context rejects every write-shaped
statement with an error raised before the statement reaches the driver
(empty trace), the rejection leaves the registry — hence the context and
its connection — unchanged, and a subsequent read-shaped statement on the
same id still runs on the context's client. -/
theorem readonly_transaction_rejects_writes (st : ManagerState) (id : String)
    (ctx : TransactionContext) (h : lookupKey st.activeTransactions id = some ctx)
    (hro : ctx.readOnly = true) (sql : String) (hw : isWriteOperation sql = true)
    (q : Except DriverErr QueryRes) :
    (queryInTransaction st id sql q).result = .error .readOnlyTxWrite ∧
    (queryInTransaction st id sql q).trace = [] ∧
    (queryInTransaction st id sql q).state = st ∧
    (∀ (sql' : String) (res : QueryRes), isWriteOperation sql' = false →
      (queryInTransaction st id sql' (.ok res)).result = .ok res ∧
      (queryInTransaction st id sql' (.ok res)).trace
        = [.clientQuery ctx.client sql']) := by
  refine ⟨?_, ?_, ?_, ?_⟩
  · simp [queryInTransaction, h, hro, hw]
  · simp [queryInTransaction, h, hro, hw]
  · simp [queryInTransaction, h, hro, hw]
  · intro sql' res hw'
    constructor <;> simp [queryInTransaction, h, hro, hw']

/-- C6 witness: DELETE rejected inside a concrete read-only transaction,
then SELECT accepted on the same context. -/
theorem readonly_transaction_rejects_writes_witness :
    (queryInTransaction stReadOnlyTx "r1" "DELETE FROM t" (.ok ⟨1⟩)).result
      = .error .readOnlyTxWrite ∧
    (queryInTransaction stReadOnlyTx "r1" "DELETE FROM t" (.ok ⟨1⟩)).trace = [] ∧
    (queryInTransaction stReadOnlyTx "r1" "DELETE FROM t" (.ok ⟨1⟩)).state
      = stReadOnlyTx ∧
    (queryInTransaction stReadOnlyTx "r1" "SELECT 1" (.ok ⟨2⟩)).result = .ok ⟨2⟩ := by
  have h := readonly_transaction_rejects_writes stReadOnlyTx "r1" ⟨"r1", 4, 0, true⟩
    (by decide) (by decide) "DELETE FROM t" (by decide) (.ok ⟨1⟩)
  exact ⟨h.1, h.2.1, h.2.2.1, (h.2.2.2 "SELECT 1" ⟨2⟩ (by decide)).1⟩

/-- An event that issues a `SET statement_timeout` command to a client. -/
def isSetTimeoutEvent : Event → Bool
  | .clientQuery _ s => startsWithList "SET statement_timeout".data s.data
  | _ => false

def stTimeoutTx : ManagerState := ⟨[("t5", ⟨"t5", 5, 0, false⟩)]⟩

/-- C2 counterexample: `queryInTransaction` runs a statement on its
acquired connection without any statement-level timeout being applied —
the only command sent to the client is the caller's own statement, and no
event of the interaction issues `SET statement_timeout`.  This refutes
the claim that both `query` and `queryInTransaction` apply a timeout
before the statement runs. -/
theorem queryInTransaction_no_timeout_counterexample :
    (queryInTransaction stTimeoutTx "t5" "SELECT pg_sleep(3600)" (.ok ⟨1⟩)).result
      = .ok ⟨1⟩ ∧
    (queryInTransaction stTimeoutTx "t5" "SELECT pg_sleep(3600)" (.ok ⟨1⟩)).trace
      = [.clientQuery 5 "SELECT pg_sleep(3600)"] ∧
    ((queryInTransaction stTimeoutTx "t5" "SELECT pg_sleep(3600)" (.ok ⟨1⟩)).trace.all
      fun ev => !(isSetTimeoutEvent ev)) = true :=
  ⟨rfl, rfl, by decide⟩

/-- C2 (amended): only the one-shot `query` path applies a statement-level
timeout — the first command it sends on the acquired connection is
`SET statement_timeout` (which overrides any previous value), computed
from the per-call timeout option when supplied and non-zero and from the
configured default maximum query time otherwise; `queryInTransaction`
sends the caller's statement with no timeout command of its own. -/
theorem query_timeout_applied (rom : Bool) (mqt : Nat) (sql : String)
    (tOpt : Option Nat) (conn : Nat) (setRes : Except DriverErr Unit)
    (queryRes : Except DriverErr QueryRes)
    (h : (rom && isWriteOperation sql) = false) :
    (managerQuery rom mqt sql tOpt conn setRes queryRes).2.head?
      = some (.clientQuery conn (setTimeoutCmd (effectiveTimeout tOpt mqt))) ∧
    (∀ (st : ManagerState) (id sql' : String) (q : Except DriverErr QueryRes),
      (queryInTransaction st id sql' q).trace = [] ∨
      ∃ c, (queryInTransaction st id sql' q).trace = [.clientQuery c sql']) := by
  constructor
  · cases setRes with
    | ok _ => cases queryRes <;> simp [managerQuery, h]
    | error e => simp [managerQuery, h]
  · intro st id sql' q
    match hl : lookupKey st.activeTransactions id with
    | none => simp [queryInTransaction, hl]
    | some context =>
        by_cases hw : (context.readOnly && isWriteOperation sql') = true
        · exact Or.inl (by simp [queryInTransaction, hl, hw])
        · exact Or.inr ⟨context.client, by cases q <;> simp [queryInTransaction, hl, hw]⟩

/-- C2 witness: one-shot query with no per-call timeout under default
maximum query time 30000, plus an in-transaction query whose trace is
exactly the caller's statement. -/
theorem query_timeout_applied_witness :
    ((false : Bool) && isWriteOperation "SELECT 1") = false ∧
    ((managerQuery false 30000 "SELECT 1" none 3 (.ok ()) (.ok ⟨1⟩)).2.head?
      = some (.clientQuery 3 (setTimeoutCmd (effectiveTimeout none 30000))) ∧
     ((queryInTransaction stTimeoutTx "t5" "SELECT 2" (.ok ⟨2⟩)).trace = [] ∨
      ∃ c, (queryInTransaction stTimeoutTx "t5" "SELECT 2" (.ok ⟨2⟩)).trace
        = [.clientQuery c "SELECT 2"])) := by
  have h := query_timeout_applied false 30000 "SELECT 1" none 3 (.ok ()) (.ok ⟨1⟩)
    (by decide)
  exact ⟨by decide, h.1, h.2 stTimeoutTx "t5" "SELECT 2" (.ok ⟨2⟩)⟩

/-- Rollback oracle that fails for transaction `"t1"` and succeeds
otherwise. -/
def rollbackFailsT1 : String → Except DriverErr Unit :=
  fun id => if id = "t1" then .error ⟨9⟩ else .ok ()

def rollbackAllOk : String → Except DriverErr Unit := fun _ => .ok ()

/-- C3 counterexample: with a registered transaction (client 7) whose
`ROLLBACK` raises, `cleanup` swallows the error but never releases that
context's connection — `release()` sits after the failing `await` inside
the same `try` block — so the claim that cleanup releases each context's
connection back to the pool is false. -/
theorem cleanup_skips_release_counterexample :
    ("t1", (⟨"t1", 7, 0, false⟩ : TransactionContext)) ∈ stTwoTx.activeTransactions ∧
    Event.release 7 ∉ (cleanup stTwoTx rollbackFailsT1).2 := by
  refine ⟨by decide, by decide⟩

/-- C3 (amended): `cleanup` iterates all still-registered contexts,
issues a ROLLBACK for each one with failures logged and not propagated
(the embedding returns normally on every oracle outcome), releases the
connection of each context whose rollback succeeded — a failed rollback
skips that context's release — clears the registry, and finally closes
the pool. -/
theorem cleanup_amended (st : ManagerState)
    (ora : String → Except DriverErr Unit) :
    (cleanup st ora).1.activeTransactions = [] ∧
    (cleanup st ora).2.getLast? = some .poolEnd ∧
    (∀ kv ∈ st.activeTransactions,
      Event.clientQuery kv.2.client "ROLLBACK" ∈ (cleanup st ora).2 ∧
      (ora kv.1 = .ok () → Event.release kv.2.client ∈ (cleanup st ora).2)) := by
  refine ⟨rfl, ?_, ?_⟩
  · simp [cleanup]
  · intro kv hkv
    have hmem : (match ora kv.1 with
        | .ok _ => [Event.clientQuery kv.2.client "ROLLBACK", Event.release kv.2.client]
        | .error _ => [Event.clientQuery kv.2.client "ROLLBACK"])
        ∈ st.activeTransactions.map fun kv =>
          match ora kv.1 with
          | .ok _ => [Event.clientQuery kv.2.client "ROLLBACK", Event.release kv.2.client]
          | .error _ => [Event.clientQuery kv.2.client "ROLLBACK"] :=
      List.mem_map_of_mem _ hkv
    constructor
    · have : Event.clientQuery kv.2.client "ROLLBACK" ∈ (match ora kv.1 with
          | .ok _ => [Event.clientQuery kv.2.client "ROLLBACK", Event.release kv.2.client]
          | .error _ => [Event.clientQuery kv.2.client "ROLLBACK"]) := by
        cases ora kv.1 <;> simp
      simp only [cleanup, List.mem_append]
      exact Or.inl (List.mem_flatten.mpr ⟨_, hmem, this⟩)
    · intro hok
      have : Event.release kv.2.client ∈ (match ora kv.1 with
          | .ok _ => [Event.clientQuery kv.2.client "ROLLBACK", Event.release kv.2.client]
          | .error _ => [Event.clientQuery kv.2.client "ROLLBACK"]) := by
        rw [hok]; simp
      simp only [cleanup, List.mem_append]
      exact Or.inl (List.mem_flatten.mpr ⟨_, hmem, this⟩)

/-- C3 witness: shutdown with two open transactions and successful
rollbacks — both are rolled back, both connections are released, the
registry is empty afterwards and the pool is closed last. -/
theorem cleanup_amended_witness :
    (cleanup stTwoTx rollbackAllOk).1.activeTransactions = [] ∧
    (cleanup stTwoTx rollbackAllOk).2.getLast? = some .poolEnd ∧
    Event.clientQuery 7 "ROLLBACK" ∈ (cleanup stTwoTx rollbackAllOk).2 ∧
    Event.release 7 ∈ (cleanup stTwoTx rollbackAllOk).2 ∧
    Event.clientQuery 8 "ROLLBACK" ∈ (cleanup stTwoTx rollbackAllOk).2 ∧
    Event.release 8 ∈ (cleanup stTwoTx rollbackAllOk).2 := by
  have h := cleanup_amended stTwoTx rollbackAllOk
  have h1 := h.2.2 ("t1", ⟨"t1", 7, 0, false⟩) (by decide)
  have h2 := h.2.2 ("t2", ⟨"t2", 8, 1, true⟩) (by decide)
  exact ⟨h.1, h.2.1, h1.1, h1.2 rfl, h2.1, h2.2 rfl⟩

def cteDeleteSql : String :=
  "WITH doomed AS (DELETE FROM t RETURNING *) SELECT * FROM doomed"

def compoundSql : String := "SELECT 1; DROP TABLE t"

/-- C10: the write-shape classifier is prefix-only — a statement is a
write exactly when its trimmed, uppercased text starts with one of the
ten listed keywords — so a CTE whose body contains DELETE and a compound
statement ending in DROP are classified read-shaped: a read-only
transaction sends them to the driver and a manager in read-only mode
accepts them. -/
theorem isWriteOperation_prefix_only :
    (∀ sql : String, isWriteOperation sql = true ↔
      ∃ op ∈ writeOperations,
        startsWithList op.data (toUpperChars (trimChars sql.data)) = true) ∧
    isWriteOperation cteDeleteSql = false ∧
    isWriteOperation compoundSql = false ∧
    (queryInTransaction stReadOnlyTx "r1" cteDeleteSql (.ok ⟨2⟩)).result = .ok ⟨2⟩ ∧
    (queryInTransaction stReadOnlyTx "r1" cteDeleteSql (.ok ⟨2⟩)).trace
      = [.clientQuery 4 cteDeleteSql] ∧
    (managerQuery true 30000 compoundSql none 3 (.ok ()) (.ok ⟨3⟩)).1 = .ok ⟨3⟩ := by
  refine ⟨?_, by decide, by decide, rfl, rfl, rfl⟩
  intro sql
  simp [isWriteOperation, List.any_eq_true]

/-- C10 witness: instance of the classifier characterization at a
DROP-prefixed statement. -/
theorem isWriteOperation_prefix_only_witness :
    isWriteOperation "DROP TABLE accounts" = true :=
  (isWriteOperation_prefix_only.1 "DROP TABLE accounts").mpr
    ⟨"DROP", by decide, by decide⟩

/-- Invariant step for the fixed window: with an entry already holding
`count` admissions (`1 ≤ count ≤ max`) and all remaining call times
inside the window, the next calls are admitted until the counter reaches
`max` and rejected afterwards. -/
theorem runCalls_in_window (id : String) (w m : Nat) (ts : List Nat) :
    ∀ (reqs : List (String × RateLimitEntry)) (e : RateLimitEntry),
    lookupKey reqs id = some e → 1 ≤ e.count → e.count ≤ m →
    (∀ t ∈ ts, t ≤ e.resetTime) →
    (runCalls reqs id w m ts).1
      = List.replicate (min ts.length (m - e.count)) true
        ++ List.replicate (ts.length - (m - e.count)) false := by
  induction ts with
  | nil => intro reqs e _ _ _ _; simp [runCalls]
  | cons t ts ih =>
      intro reqs e hl h1 hle hts
      have htw : ¬ t > e.resetTime := by
        have := hts t (by simp)
        omega
      by_cases hge : e.count ≥ m
      · have hstep : checkLimit reqs id t w m
            = (false, setKey reqs id ⟨e.count, e.resetTime, t⟩) := by
          simp [checkLimit, hl, htw, hge]
        have hrec := ih (setKey reqs id ⟨e.count, e.resetTime, t⟩)
          ⟨e.count, e.resetTime, t⟩ (lookupKey_setKey_self _ _ _) h1 hle
          (fun t' ht' => hts t' (by simp [ht']))
        have hz : m - e.count = 0 := by omega
        simp only [runCalls, hstep, hrec, hz]
        simp [List.replicate_succ]
      · have hlt : e.count < m := by omega
        have hnge : ¬ e.count ≥ m := by omega
        have hstep : checkLimit reqs id t w m
            = (true, setKey reqs id ⟨e.count + 1, e.resetTime, t⟩) := by
          simp [checkLimit, hl, htw, hnge]
        have hrec := ih (setKey reqs id ⟨e.count + 1, e.resetTime, t⟩)
          ⟨e.count + 1, e.resetTime, t⟩ (lookupKey_setKey_self _ _ _)
          (Nat.le_add_left 1 e.count) (by show e.count + 1 ≤ m; omega)
          (fun t' ht' => hts t' (by simp [ht']))
        have h₁ : min (ts.length + 1) (m - e.count)
            = min ts.length (m - (e.count + 1)) + 1 := by omega
        have h₂ : ts.length + 1 - (m - e.count)
            = ts.length - (m - (e.count + 1)) := by omega
        simp only [runCalls, hstep, hrec]
        simp [h₁, h₂, List.replicate_succ]

/-- C8: from a state with no window for the identifier, a run of calls
whose times all lie inside the window opened by the first call admits
exactly `maxRequests` of them (all initial ones) and rejects every later
call of the window, each rejection returning `false` directly; and
whenever the current time has passed a stored window's reset timestamp,
the next call opens a fresh window and is admitted. -/
theorem rate_limiter_fixed_window (reqs : List (String × RateLimitEntry))
    (id : String) (m w t₀ : Nat) (ts : List Nat) (hm : 1 ≤ m)
    (h0 : lookupKey reqs id = none) (hts : ∀ t ∈ ts, t ≤ t₀ + w) :
    (runCalls reqs id w m (t₀ :: ts)).1
      = List.replicate (min (ts.length + 1) m) true
        ++ List.replicate (ts.length + 1 - m) false ∧
    (∀ (reqs' : List (String × RateLimitEntry)) (e : RateLimitEntry) (now' : Nat),
      lookupKey reqs' id = some e → now' > e.resetTime →
      (checkLimit reqs' id now' w m).1 = true) := by
  constructor
  · have hstep : checkLimit reqs id t₀ w m
        = (true, setKey reqs id ⟨1, t₀ + w, t₀⟩) := by
      simp [checkLimit, h0]
    have hrec := runCalls_in_window id w m ts (setKey reqs id ⟨1, t₀ + w, t₀⟩)
      ⟨1, t₀ + w, t₀⟩ (lookupKey_setKey_self _ _ _) le_rfl hm hts
    have h₁ : min (ts.length + 1) m = min ts.length (m - 1) + 1 := by omega
    have h₂ : ts.length + 1 - m = ts.length - (m - 1) := by omega
    simp only [runCalls, hstep, hrec]
    simp [h₁, h₂, List.replicate_succ]
  · intro reqs' e now' hl hn
    simp [checkLimit, hl, hn]

/-- C8 witness: ceiling 2, window 10 opened at time 0 — four calls in the
window yield admit, admit, reject, reject; an expired window is reopened
and admitted. -/
theorem rate_limiter_fixed_window_witness :
    (1 ≤ 2 ∧ (∀ t ∈ [0, 0, 0], t ≤ 0 + 10)) ∧
    (runCalls [] "client" 10 2 [0, 0, 0, 0]).1 = [true, true, false, false] ∧
    (checkLimit [("client", ⟨2, 5, 0⟩)] "client" 6 10 2).1 = true := by
  have h := rate_limiter_fixed_window [] "client" 2 10 0 [0, 0, 0] (by decide) rfl
    (by decide)
  refine ⟨⟨by decide, by decide⟩, ?_, ?_⟩
  · simpa using h.1
  · exact h.2 [("client", ⟨2, 5, 0⟩)] ⟨2, 5, 0⟩ 6 (by decide) (by decide)

/-- C9: for attempts from 1, the retry delay equals
`min(base * 2 ^ (attempt - 1) * (1 + jitter), 30000)` with jitter
`r / 10 ∈ [0, 1/10)` for the random draw `r ∈ [0, 1)`; for attempt 3 with
base 1000 the delay lies in `[4000, 4400)`; and for every attempt, base
and draw the delay never exceeds 30000. -/
theorem retry_delay_backoff (n : Nat) (b r : ℚ) (hn : 1 ≤ n)
    (hr0 : 0 ≤ r) (hr1 : r < 1) :
    getRetryDelay n b r = min (b * 2 ^ (n - 1) * (1 + r * (1 / 10))) 30000 ∧
    (0 ≤ r * (1 / 10) ∧ r * (1 / 10) < 1 / 10) ∧
    (4000 ≤ getRetryDelay 3 1000 r ∧ getRetryDelay 3 1000 r < 4400) ∧
    (∀ (n' : Nat) (b' r' : ℚ), getRetryDelay n' b' r' ≤ 30000) := by
  refine ⟨?_, ⟨?_, ?_⟩, ⟨?_, ?_⟩, ?_⟩
  · unfold getRetryDelay
    ring_nf
  · positivity
  · linarith
  · have h3 : getRetryDelay 3 1000 r = min (4000 + 400 * r) 30000 := by
      unfold getRetryDelay
      norm_num
      congr 1
      ring
    rw [h3]
    have : (4000 : ℚ) + 400 * r ≤ 30000 := by linarith
    rw [min_eq_left this]
    linarith
  · have h3 : getRetryDelay 3 1000 r = min (4000 + 400 * r) 30000 := by
      unfold getRetryDelay
      norm_num
      congr 1
      ring
    rw [h3]
    have : (4000 : ℚ) + 400 * r ≤ 30000 := by linarith
    rw [min_eq_left this]
    linarith
  · intro n' b' r'
    unfold getRetryDelay
    exact min_le_right _ _

/-- C9 witness: attempt 3, base 1000, random draw 1/2. -/
theorem retry_delay_backoff_witness :
    (1 ≤ 3 ∧ (0 : ℚ) ≤ 1 / 2 ∧ (1 / 2 : ℚ) < 1) ∧
    getRetryDelay 3 1000 (1 / 2)
      = min ((1000 : ℚ) * 2 ^ (3 - 1) * (1 + (1 / 2) * (1 / 10))) 30000 ∧
    4000 ≤ getRetryDelay 3 1000 (1 / 2) ∧
    getRetryDelay 3 1000 (1 / 2) < 4400 := by
  have h := retry_delay_backoff 3 1000 (1 / 2) (by norm_num) (by norm_num)
    (by norm_num)
  exact ⟨⟨by norm_num, by norm_num, by norm_num⟩, h.1, h.2.2.1.1, h.2.2.1.2⟩

/-! ## Structure of generated cache keys -/

theorem startsWithList_subset (sub : List Char) :
    ∀ l, startsWithList sub l = true → ∀ a ∈ sub, a ∈ l := by
  induction sub with
  | nil => intro l _ a ha; simp at ha
  | cons s ss ih =>
      intro l h a ha
      cases l with
      | nil => simp [startsWithList] at h
      | cons b bs =>
          rw [startsWithList, Bool.and_eq_true, beq_iff_eq] at h
          rcases List.mem_cons.mp ha with rfl | ha'
          · simp [h.1]
          · exact List.mem_cons_of_mem _ (ih bs h.2 a ha')

theorem containsSub_subset (sub : List Char) :
    ∀ l, containsSub sub l = true → ∀ a ∈ sub, a ∈ l := by
  intro l
  induction l with
  | nil =>
      intro h a ha
      cases sub with
      | nil => simp at ha
      | cons s ss => simp [containsSub, startsWithList] at h
  | cons c rest ih =>
      intro h a ha
      rw [containsSub, Bool.or_eq_true] at h
      rcases h with h | h
      · exact startsWithList_subset sub _ h a ha
      · exact List.mem_cons_of_mem _ (ih h a ha)

theorem wsPlusThen_eq_false (lit l : List Char)
    (h : ∀ a ∈ l, jsWhitespace a = false) : wsPlusThen lit l = false := by
  cases l with
  | nil => rfl
  | cons c rest => simp [wsPlusThen, h c (by simp)]

theorem kwWsThen_eq_false (kw lit : List Char) :
    ∀ l, (∀ a ∈ l, jsWhitespace a = false) → kwWsThen kw lit l = false := by
  intro l
  induction l with
  | nil => intro _; rfl
  | cons c rest ih =>
      intro h
      have hws : wsPlusThen lit (List.drop kw.length (c :: rest)) = false :=
        wsPlusThen_eq_false _ _ (fun a ha => h a (List.drop_subset _ _ ha))
      have hr : kwWsThen kw lit rest = false := ih (fun a ha => h a (by simp [ha]))
      simp [kwWsThen, hws, hr]

theorem getD_mem_or_eq (l : List Char) (i : Nat) (d : Char) :
    l.getD i d ∈ l ∨ l.getD i d = d := by
  induction l generalizing i with
  | nil => right; simp
  | cons a rest ih =>
      cases i with
      | zero => left; simp
      | succ i =>
          rw [List.getD_cons_succ]
          rcases ih i with h | h
          · exact Or.inl (List.mem_cons_of_mem _ h)
          · exact Or.inr h

theorem digit36_mem (d : Nat) : digit36 d ∈ base36Digits := by
  unfold digit36
  rcases getD_mem_or_eq base36Digits d '0' with h | h
  · exact h
  · rw [h]; decide

theorem toBase36Aux_chars (fuel : Nat) :
    ∀ (n : Nat) (acc : List Char), (∀ c ∈ acc, c ∈ base36Digits) →
    ∀ c ∈ toBase36Aux fuel n acc, c ∈ base36Digits := by
  induction fuel with
  | zero => intro n acc h c hc; exact h c (by simpa [toBase36Aux] using hc)
  | succ fuel ih =>
      intro n acc h c hc
      by_cases hn : n = 0
      · rw [toBase36Aux, if_pos hn] at hc
        exact h c hc
      · rw [toBase36Aux, if_neg hn] at hc
        refine ih (n / 36) _ (fun c' hc' => ?_) c hc
        rcases List.mem_cons.mp hc' with rfl | h'
        · exact digit36_mem _
        · exact h c' h'

theorem natToBase36_chars (n : Nat) : ∀ c ∈ natToBase36 n, c ∈ base36Digits := by
  unfold natToBase36
  by_cases hn : n = 0
  · rw [if_pos hn]; decide
  · rw [if_neg hn]
    exact toBase36Aux_chars 64 n [] (by simp)

theorem generateKey_chars (sql : String) (p o : Option String) :
    ∀ c ∈ generateKey sql p o, c ∈ base36Digits := by
  unfold generateKey simpleHash
  exact natToBase36_chars _

theorem base36_not_ws_dot : ∀ c ∈ base36Digits, jsWhitespace c = false ∧ c ≠ '.' := by
  decide

theorem base36_toLower_mem : ∀ c ∈ base36Digits, Char.toLower c ∈ base36Digits := by
  decide

/-- Generated cache keys consist only of base-36 digit characters, while
every alternative of the table-invalidation pattern needs a dot or a
whitespace character to match: for schema and table names free of regex
metacharacters the pattern matches no generated key. -/
theorem tablePatternTest_generateKey_false (schemaName tableName : String)
    (hs : regexPlainName schemaName = true) (ht : regexPlainName tableName = true)
    (sql : String) (p o : Option String) :
    tablePatternTest schemaName tableName (generateKey sql p o) = false := by
  have hb : ∀ c ∈ toLowerChars (generateKey sql p o), c ∈ base36Digits := by
    intro c hc
    rcases List.mem_map.mp hc with ⟨c₀, hc₀, rfl⟩
    exact base36_toLower_mem c₀ (generateKey_chars sql p o c₀ hc₀)
  have hnws : ∀ c ∈ toLowerChars (generateKey sql p o), jsWhitespace c = false :=
    fun c hc => (base36_not_ws_dot c (hb c hc)).1
  have h1 : containsSub
      (toLowerChars schemaName.data ++ '.' :: toLowerChars tableName.data)
      (toLowerChars (generateKey sql p o)) = false := by
    cases hcon : containsSub
        (toLowerChars schemaName.data ++ '.' :: toLowerChars tableName.data)
        (toLowerChars (generateKey sql p o)) with
    | false => rfl
    | true =>
        exfalso
        have hdot := containsSub_subset _ _ hcon '.' (by simp)
        exact (base36_not_ws_dot '.' (hb '.' hdot)).2 rfl
  have h2 := kwWsThen_eq_false "from".data (toLowerChars tableName.data)
    (toLowerChars (generateKey sql p o)) hnws
  have h3 := kwWsThen_eq_false "join".data (toLowerChars tableName.data)
    (toLowerChars (generateKey sql p o)) hnws
  unfold tablePatternTest
  simp [h1, h2, h3]

def keyUsers : List Char := generateKey "SELECT * FROM users" none none

def cacheUsers : List (List Char × CacheEntryM) := [(keyUsers, ⟨0, 0, 0, 42⟩)]

/-- C7 (code bug): cache keys are base-36 hashes of the normalized
query, so the pattern `invalidateTable` builds from a table's qualified
name and its FROM/JOIN appearances can never match any generated key —
invalidating a cache that holds the cached result of a query over the
table removes nothing — while `invalidate` with no pattern does clear the
cache and return the removed count. -/
theorem invalidateTable_matches_no_key :
    (∀ schemaName tableName : String, regexPlainName schemaName = true →
      regexPlainName tableName = true →
      ∀ (sql : String) (p o : Option String),
        tablePatternTest schemaName tableName (generateKey sql p o) = false) ∧
    (invalidateTable cacheUsers "users" "public").1 = 0 ∧
    (invalidateTable cacheUsers "users" "public").2 = cacheUsers ∧
    (invalidate cacheUsers none).1 = 1 ∧
    (invalidate cacheUsers none).2 = [] := by
  refine ⟨?_, by decide, by decide, rfl, rfl⟩
  intro schemaName tableName hs ht sql p o
  exact tablePatternTest_generateKey_false schemaName tableName hs ht sql p o

/-- C7 witness: the pattern for table `users` in schema `public` fails to
match the key generated for a parameterized query over `users`. -/
theorem invalidateTable_matches_no_key_witness :
    regexPlainName "public" = true ∧ regexPlainName "users" = true ∧
    tablePatternTest "public" "users"
      (generateKey "SELECT id FROM users WHERE id = $1" (some "[1]") none) = false :=
  ⟨by decide, by decide,
   invalidateTable_matches_no_key.1 "public" "users" (by decide) (by decide)
     "SELECT id FROM users WHERE id = $1" (some "[1]") none⟩
